import Mathlib

/-!
Shallow embedding of `src/optimize_logo.py`.

The script is a single straight-line try/except block:

  try:
      from PIL import Image   (followed by importing os)
      path = r"...logo.png"
      if os.path.exists(path):
          img = Image.open(path)
          print(f"Original size: {img.size}")
          if img.width > 512:
              ratio = 512 / img.width
              new_height = int(img.height * ratio)
              img = img.resize((512, new_height), Image.Resampling.LANCZOS)
              img.save(path, optimize=True, quality=85)
              print(f"Resized to: {img.size}")
          else:
              print("Image small enough, skipping resize.")
              img.save(path, optimize=True, quality=85)
              print("Optimized existing image.")
  except ImportError:
      print("Pillow not installed")
  except Exception as e:
      print(f"Error: {e}")

The environment supplies the parts of the world the script reads: whether
the PIL import succeeds, what is on disk at the hard-coded path (nothing,
a decodable image, or undecodable bytes), and whether the save call
succeeds.  The result records the console output, the final file content,
the resize requests made, the save calls performed, and any exception
that escaped the two handlers.

Two aspects of the resize branch are modelled bit-exactly rather than
idealized:

* `new_height` is computed in IEEE-754 binary64 arithmetic, exactly as
  CPython evaluates `int(img.height * (512 / img.width))`: the quotient
  is correctly rounded to a double, the product with the height is
  correctly rounded again, and `int` truncates.  This value differs from
  the exact `floor(height * 512 / width)` at many inputs (for example a
  4090 x 4090 image yields 511, not 512).  `pyNewHeight` below implements
  this with exact integer arithmetic and round-to-nearest-even.

* Pillow's `resize` raises `ValueError("height and width must be > 0")`
  when a requested target dimension is below 1, which in this script
  happens exactly when the computed height is 0 (the target width is
  always 512).  On that path nothing is saved and the file is unchanged.
-/

/-- An in-memory decoded bitmap: the two attributes the script reads. -/
structure Image where
  width : Nat
  height : Nat
deriving Repr, DecidableEq

/-- Content of the file at the hard-coded path: either bytes that decode
to an image, or bytes on which `Image.open` raises (carrying the message
of that exception). -/
inductive FileContent where
  | validImage (img : Image)
  | invalid (msg : String)
deriving Repr, DecidableEq

/-- Python exceptions distinguished by the two handlers of the script. -/
inductive PyExc where
  | importError
  | exc (msg : String)
deriving Repr, DecidableEq

/-- One `img.save(path, optimize=True, quality=85)` call, recording the
image written and the keyword arguments passed. -/
structure SaveCall where
  img : Image
  optimize : Bool
  quality : Nat
deriving Repr, DecidableEq

/-- The parts of the environment the script interacts with. `file` is the
content at the hard-coded path (`none` when `os.path.exists` is false);
`saveOk` tells whether `img.save` succeeds, and `saveErr` is the message
of the exception it raises otherwise. -/
structure Env where
  pilAvailable : Bool
  file : Option FileContent
  saveOk : Bool
  saveErr : String
deriving Repr, DecidableEq

/-- Python `str` of the tuple `img.size = (width, height)`, as interpolated
by `f"Original size: {img.size}"`. -/
def fmtSize (img : Image) : String :=
  "(" ++ toString img.width ++ ", " ++ toString img.height ++ ")"

/-- Number of binary digits of `n`, driven by structural fuel in the
first argument; `bitLenAux f n` is exact whenever `n < 2 ^ f`. -/
def bitLenAux : Nat → Nat → Nat
  | 0, _ => 0
  | f + 1, n => if n = 0 then 0 else bitLenAux f (n / 2) + 1

/-- Number of binary digits of `n`, exact for every `n < 2 ^ 200` — far
beyond the magnitudes binary64 arithmetic produces below. -/
def bitLen (n : Nat) : Nat := bitLenAux 200 n

/-- Round-to-nearest, ties-to-even, of the rational `P / Q`, as an
integer.  This is the rounding IEEE-754 binary64 applies to an exactly
computed quotient or product once it is scaled into mantissa position. -/
def rne (P Q : Nat) : Nat :=
  if 2 * (P % Q) < Q then P / Q
  else if Q < 2 * (P % Q) then P / Q + 1
  else P / Q + P / Q % 2

/-- Mantissa of the correctly rounded binary64 value of `512 / w`: with
`b = bitLen w` the quotient lies in `[2 ^ 52, 2 ^ 53]` after scaling by
`2 ^ (43 + b)`, so `fl(512 / w) = flRatioM w * 2 ^ (-(43 + bitLen w))`.
This is the value CPython's `512 / img.width` produces for any positive
`w` in the normal binary64 range. -/
def flRatioM (w : Nat) : Nat := rne (2 ^ (52 + bitLen w)) w

/-- Truncation toward zero of the correctly rounded binary64 product
`p2 * 2 ^ (-t)`, where `p2` is the exact integer product of the height
with `flRatioM w` and `t = 43 + bitLen w`: if `p2` fits in 53 bits the
product is exact, otherwise it is rounded to 53 significant bits first.
This is `int(h * ratio)` as CPython evaluates it. -/
def truncProd (p2 t : Nat) : Nat :=
  if bitLen p2 ≤ 53 then
    p2 / 2 ^ t
  else if t ≤ bitLen p2 - 53 then
    rne p2 (2 ^ (bitLen p2 - 53)) * 2 ^ (bitLen p2 - 53 - t)
  else
    rne p2 (2 ^ (bitLen p2 - 53)) / 2 ^ (t - (bitLen p2 - 53))

/-- The height the script computes for width `w` and height `h`:
`int(h * (512 / w))` in IEEE-754 binary64 arithmetic.  Faithful to
CPython whenever `h ≤ 2 ^ 53` (a larger height would itself be rounded
on conversion to float) and the values stay in the normal binary64
range, which covers every realistic image. -/
def pyNewHeight (w h : Nat) : Nat :=
  truncProd (h * flRatioM w) (43 + bitLen w)

/-- The target the script passes to `img.resize`: width 512 and the
double-precision computed height. -/
def resizedImage (img : Image) : Image :=
  { width := 512, height := pyNewHeight img.width img.height }

/-- State accumulated by the body of the `try` block: console lines
printed, file content at the path, save calls performed, and resize
requests made. -/
structure ProgState where
  output : List String
  fs : Option FileContent
  saves : List SaveCall
  resizes : List (Nat × Nat)
deriving Repr, DecidableEq

/-- The body of the `try` block (lines 2-18 of the script), returning the
state reached together with the exception that aborted it, if any.  A
resize request with target height 0 raises Pillow's
`ValueError("height and width must be > 0")` before any save; a failed
save is modelled as leaving the file content unchanged. -/
def tryBody (env : Env) : ProgState × Option PyExc :=
  if env.pilAvailable = false then
    ({ output := [], fs := env.file, saves := [], resizes := [] },
     some .importError)
  else
    match env.file with
    | none =>
        ({ output := [], fs := none, saves := [], resizes := [] }, none)
    | some (.invalid m) =>
        ({ output := [], fs := some (.invalid m), saves := [], resizes := [] },
         some (.exc m))
    | some (.validImage img) =>
        let out0 := ["Original size: " ++ fmtSize img]
        if img.width > 512 then
          let img2 := resizedImage img
          if img2.height = 0 then
            ({ output := out0, fs := some (.validImage img), saves := [],
               resizes := [(img2.width, img2.height)] },
             some (.exc "height and width must be > 0"))
          else if env.saveOk then
            ({ output := out0 ++ ["Resized to: " ++ fmtSize img2],
               fs := some (.validImage img2),
               saves := [⟨img2, true, 85⟩],
               resizes := [(img2.width, img2.height)] }, none)
          else
            ({ output := out0, fs := some (.validImage img), saves := [],
               resizes := [(img2.width, img2.height)] },
             some (.exc env.saveErr))
        else
          let out1 := out0 ++ ["Image small enough, skipping resize."]
          if env.saveOk then
            ({ output := out1 ++ ["Optimized existing image."],
               fs := some (.validImage img),
               saves := [⟨img, true, 85⟩], resizes := [] }, none)
          else
            ({ output := out1, fs := some (.validImage img), saves := [],
               resizes := [] },
             some (.exc env.saveErr))

/-- Observable result of one process run: console output, final file
content, save calls and resize requests, and any exception that escaped
both handlers (`none` means the process exits with a success status). -/
structure RunResult where
  output : List String
  fs : Option FileContent
  saves : List SaveCall
  resizes : List (Nat × Nat)
  uncaught : Option PyExc
deriving Repr, DecidableEq

/-- The two handlers of the script: `except ImportError` prints
"Pillow not installed"; `except Exception as e` prints `f"Error: {e}"`.
Every `PyExc` is a Python `Exception`, so nothing escapes. -/
def applyHandlers (st : ProgState) : Option PyExc → RunResult
  | none =>
      { output := st.output, fs := st.fs, saves := st.saves,
        resizes := st.resizes, uncaught := none }
  | some .importError =>
      { output := st.output ++ ["Pillow not installed"], fs := st.fs,
        saves := st.saves, resizes := st.resizes, uncaught := none }
  | some (.exc m) =>
      { output := st.output ++ ["Error: " ++ m], fs := st.fs,
        saves := st.saves, resizes := st.resizes, uncaught := none }

/-- One run of the whole script in environment `env`. -/
def run (env : Env) : RunResult :=
  applyHandlers (tryBody env).1 (tryBody env).2

/-- With positive fuel and a positive argument, `bitLenAux` is positive. -/
theorem bitLenAux_pos (f n : Nat) (hn : 0 < n) (hf : 0 < f) :
    0 < bitLenAux f n := by
  cases f with
  | zero => omega
  | succ f =>
      simp only [bitLenAux]
      rw [if_neg (by omega : ¬ n = 0)]
      omega

/-- Lower bound of `bitLenAux`: a positive `n` has at least
`bitLenAux f n` binary digits, for any fuel. -/
theorem bitLenAux_lower (f : Nat) :
    ∀ n : Nat, 0 < n → 2 ^ (bitLenAux f n - 1) ≤ n := by
  induction f with
  | zero =>
      intro n hn
      simp only [bitLenAux]
      omega
  | succ f ih =>
      intro n hn
      simp only [bitLenAux]
      rw [if_neg (by omega : ¬ n = 0), Nat.add_sub_cancel]
      by_cases h2 : n / 2 = 0
      · have hb0 : bitLenAux f (n / 2) = 0 := by
          rw [h2]; cases f <;> simp [bitLenAux]
        rw [hb0]; simpa using hn
      · have hIH := ih (n / 2) (by omega)
        rcases Nat.eq_zero_or_pos (bitLenAux f (n / 2)) with hz | hp
        · rw [hz]; simpa using hn
        · have he : bitLenAux f (n / 2) = (bitLenAux f (n / 2) - 1) + 1 := by
            omega
          have h5 : 2 ^ bitLenAux f (n / 2)
              = 2 ^ (bitLenAux f (n / 2) - 1) * 2 := by
            conv_lhs => rw [he]
            rw [pow_succ]
          rw [h5]
          calc 2 ^ (bitLenAux f (n / 2) - 1) * 2
              ≤ (n / 2) * 2 := Nat.mul_le_mul_right 2 hIH
            _ ≤ n := by omega

/-- Lower bound of `bitLen`: `2 ^ (bitLen n - 1) ≤ n` for positive `n`. -/
theorem bitLen_lower (n : Nat) (hn : 0 < n) : 2 ^ (bitLen n - 1) ≤ n :=
  bitLenAux_lower 200 n hn

/-- `rne` overshoots the exact quotient by at most half a unit:
`2 * rne P Q * Q ≤ 2 * P + Q`. -/
theorem rne_two_mul_le (P Q : Nat) : 2 * rne P Q * Q ≤ 2 * P + Q := by
  by_cases hQ : Q = 0
  · subst hQ; simp [rne]
  · have h0 : 0 < Q := Nat.pos_of_ne_zero hQ
    have hdm : Q * (P / Q) + P % Q = P := Nat.div_add_mod P Q
    have hmod : P % Q < Q := Nat.mod_lt _ h0
    unfold rne
    generalize hgs : P / Q = s at hdm ⊢
    generalize hgr : P % Q = r at hdm hmod ⊢
    have hs2 : s % 2 ≤ 1 := Nat.le_of_lt_succ (Nat.mod_lt _ (by omega))
    by_cases h1 : 2 * r < Q
    · rw [if_pos h1]
      nlinarith [hdm]
    · rw [if_neg h1]
      by_cases h2 : Q < 2 * r
      · rw [if_pos h2]
        nlinarith [hdm]
      · rw [if_neg h2]
        have h3 : 2 * r = Q := by omega
        have hQ2 : s % 2 * Q ≤ 1 * Q := Nat.mul_le_mul_right Q hs2
        nlinarith [hdm, hQ2, h3]

/-- `truncProd` never reaches `h + 1`: if the exact product is below
`h * 2 ^ t` with slack `h` for the first rounding and the product is at
most `h * 2 ^ 53` (mantissas never exceed `2 ^ 53`), truncation of the
rounded product stays at most `h`. -/
theorem truncProd_le (p2 t h : Nat) (h1 : p2 + h ≤ h * 2 ^ t)
    (h2 : p2 ≤ h * 2 ^ 53) : truncProd p2 t ≤ h := by
  unfold truncProd
  by_cases hbl : bitLen p2 ≤ 53
  · rw [if_pos hbl]
    calc p2 / 2 ^ t ≤ h * 2 ^ t / 2 ^ t :=
          Nat.div_le_div_right (le_trans (Nat.le_add_right _ _) h1)
      _ = h := Nat.mul_div_cancel h (pow_pos (by norm_num) t)
  · rw [if_neg hbl]
    rcases Nat.eq_zero_or_pos p2 with rfl | hp2
    · exact absurd (by decide : bitLen 0 ≤ 53) hbl
    have hblow := bitLen_lower p2 hp2
    have hkexp : bitLen p2 - 1 = (bitLen p2 - 53) + 52 := by omega
    rw [hkexp] at hblow
    have hrne := rne_two_mul_le p2 (2 ^ (bitLen p2 - 53))
    have hk2h : 2 ^ (bitLen p2 - 53) ≤ 2 * h := by
      have e1 : (2 : Nat) ^ ((bitLen p2 - 53) + 52)
          = 2 ^ (bitLen p2 - 53) * 2 ^ 52 := pow_add 2 _ _
      have e2 : h * 2 ^ 53 = (2 * h) * 2 ^ 52 := by
        rw [show (2 : Nat) ^ 53 = 2 ^ 52 * 2 by norm_num]; ring
      have : 2 ^ (bitLen p2 - 53) * 2 ^ 52 ≤ (2 * h) * 2 ^ 52 := by
        rw [← e1, ← e2]; exact le_trans hblow h2
      exact Nat.le_of_mul_le_mul_right this (pow_pos (by norm_num) 52)
    by_cases htk : t ≤ bitLen p2 - 53
    · rw [if_pos htk]
      have s1 : 2 * rne p2 (2 ^ (bitLen p2 - 53)) * 2 ^ (bitLen p2 - 53)
          ≤ 2 * p2 + 2 * h := by linarith
      have s2 : 2 * p2 + 2 * h ≤ 2 * (h * 2 ^ t) := by linarith [h1]
      have s3 : rne p2 (2 ^ (bitLen p2 - 53)) * 2 ^ (bitLen p2 - 53)
          ≤ h * 2 ^ t := by
        have s12 := le_trans s1 s2
        rw [mul_assoc] at s12
        exact Nat.le_of_mul_le_mul_left s12 (by norm_num)
      have e3 : rne p2 (2 ^ (bitLen p2 - 53)) * 2 ^ (bitLen p2 - 53 - t) * 2 ^ t
          = rne p2 (2 ^ (bitLen p2 - 53)) * 2 ^ (bitLen p2 - 53) := by
        rw [mul_assoc, ← pow_add]
        congr 2
        omega
      have s4 : rne p2 (2 ^ (bitLen p2 - 53)) * 2 ^ (bitLen p2 - 53 - t) * 2 ^ t
          ≤ h * 2 ^ t := by rw [e3]; exact s3
      exact Nat.le_of_mul_le_mul_right s4 (pow_pos (by norm_num) t)
    · rw [if_neg htk]
      have hpt : (0 : Nat) < 2 ^ t := pow_pos (by norm_num) t
      have d1 : 2 * p2 ≤ 2 * (h * 2 ^ t) := by linarith [h1]
      have d2 : (2 : Nat) ^ (bitLen p2 - 53) ≤ 2 ^ t :=
        Nat.pow_le_pow_right (by norm_num) (by omega)
      have s1 : 2 * rne p2 (2 ^ (bitLen p2 - 53)) * 2 ^ (bitLen p2 - 53)
          ≤ 2 * (h * 2 ^ t) + 2 ^ t := by linarith
      have s2 : rne p2 (2 ^ (bitLen p2 - 53)) * 2 ^ (bitLen p2 - 53)
          < (h + 1) * 2 ^ t := by nlinarith [s1, hpt]
      have e3 : (h + 1) * 2 ^ (t - (bitLen p2 - 53)) * 2 ^ (bitLen p2 - 53)
          = (h + 1) * 2 ^ t := by
        rw [mul_assoc, ← pow_add]
        congr 2
        omega
      have s3 : rne p2 (2 ^ (bitLen p2 - 53))
          < (h + 1) * 2 ^ (t - (bitLen p2 - 53)) := by
        rw [← e3] at s2
        exact lt_of_mul_lt_mul_right s2 (Nat.zero_le _)
      have s4 := (Nat.div_lt_iff_lt_mul
        (pow_pos (by norm_num) (t - (bitLen p2 - 53)))).mpr s3
      exact Nat.lt_succ_iff.mp s4

/-- The rounded mantissa of `512 / w` stays strictly below `2 ^ (43 + b)`
when `w > 512`: the float ratio is strictly below 1. -/
theorem flRatioM_lt (w : Nat) (hw : 512 < w) :
    flRatioM w < 2 ^ (43 + bitLen w) := by
  unfold flRatioM
  by_contra hc
  push_neg at hc
  have hrne := rne_two_mul_le (2 ^ (52 + bitLen w)) w
  have e : (2 : Nat) * 2 ^ (52 + bitLen w)
      = 1024 * 2 ^ (43 + bitLen w) := by
    rw [show 52 + bitLen w = 9 + (43 + bitLen w) by omega, pow_add,
      ← mul_assoc]
    norm_num
  rw [e] at hrne
  have l1 : 2 * 2 ^ (43 + bitLen w) * w ≤ 2 * rne (2 ^ (52 + bitLen w)) w * w :=
    Nat.mul_le_mul_right w (Nat.mul_le_mul_left 2 hc)
  have l3 : 2 * 2 ^ (43 + bitLen w) * w ≤ 1024 * 2 ^ (43 + bitLen w) + w :=
    le_trans l1 hrne
  have l4 : w ≤ 2 ^ (43 + bitLen w) * w :=
    Nat.le_mul_of_pos_left w (pow_pos (by norm_num) _)
  have l5 : 2 ^ (43 + bitLen w) * w ≤ 2 ^ (43 + bitLen w) * 1024 := by
    linarith
  have l6 : w ≤ 1024 :=
    Nat.le_of_mul_le_mul_left l5 (pow_pos (by norm_num) _)
  have l7 : 2 * 2 ^ (43 + bitLen w) * 513 ≤ 2 * 2 ^ (43 + bitLen w) * w :=
    Nat.mul_le_mul_left _ (by omega)
  have l8 : 2 * 2 ^ (43 + bitLen w) ≤ w := by linarith
  have l9 : (2 : Nat) ^ 43 ≤ 2 ^ (43 + bitLen w) :=
    Nat.pow_le_pow_right (by norm_num) (by omega)
  have l10 : (2 : Nat) ^ 43 = 8796093022208 := by norm_num
  linarith [l6, l8, l9, l10]

/-- The rounded mantissa of `512 / w` is at most `2 ^ 53`: the rounding
cannot escape the mantissa range from below the top of the binade. -/
theorem flRatioM_le (w : Nat) (hw : 512 < w) : flRatioM w ≤ 2 ^ 53 := by
  unfold flRatioM
  by_contra hc
  push_neg at hc
  have hwpos : 0 < w := by omega
  have hb1 : 0 < bitLen w := bitLenAux_pos 200 w hwpos (by norm_num)
  have hblow : 2 ^ (bitLen w - 1) ≤ w := bitLen_lower w hwpos
  have hrne := rne_two_mul_le (2 ^ (52 + bitLen w)) w
  have e2 : (2 : Nat) * 2 ^ (52 + bitLen w)
      = 2 ^ 54 * 2 ^ (bitLen w - 1) := by
    rw [show 52 + bitLen w = 53 + (bitLen w - 1) by omega, pow_add,
      ← mul_assoc]
    norm_num
  rw [e2] at hrne
  have l1 : (2 ^ 54 + 2) * w ≤ 2 * rne (2 ^ (52 + bitLen w)) w * w := by
    refine Nat.mul_le_mul_right w ?_
    have hc' : 2 ^ 53 + 1 ≤ rne (2 ^ (52 + bitLen w)) w := hc
    calc (2 : Nat) ^ 54 + 2 = 2 * (2 ^ 53 + 1) := by norm_num
      _ ≤ 2 * rne (2 ^ (52 + bitLen w)) w := Nat.mul_le_mul_left 2 hc'
  have l2 : 2 ^ 54 * 2 ^ (bitLen w - 1) ≤ 2 ^ 54 * w :=
    Nat.mul_le_mul_left _ hblow
  have l3 : (2 ^ 54 + 2) * w ≤ 2 ^ 54 * w + w :=
    le_trans l1 (le_trans hrne (Nat.add_le_add_right l2 w))
  have p54 : (2 : Nat) ^ 54 = 18014398509481984 := by norm_num
  rw [p54] at l3
  omega

/-- The double-precision computed height never exceeds the original
height when the width exceeds 512: the float ratio is below 1 and the
final rounding cannot reach the next integer. -/
theorem pyNewHeight_le (w h : Nat) (hw : 512 < w) : pyNewHeight w h ≤ h := by
  unfold pyNewHeight
  apply truncProd_le
  · have k1 := flRatioM_lt w hw
    have e : h * flRatioM w + h = h * (flRatioM w + 1) := by ring
    rw [e]
    exact Nat.mul_le_mul_left h (by omega)
  · exact Nat.mul_le_mul_left h (flRatioM_le w hw)

/-- C1 (amended): for every image with original width `w > 512` and
dimensions in the double-exact range (`w, h ≤ 2 ^ 53`), when the
double-precision computed height `int(h * (512 / w))` is positive,
processing (with Pillow available and a succeeding save) leaves on disk
an image of width exactly 512 — which equals `min(w, 512)` — and height
equal to that computed value, which can differ by one from the exact
`floor(h * 512 / w)`.  (When the computed height is zero the resize
raises and the file keeps its original dimensions, as the counterexample
shows.) -/
theorem C1_width_cap (img : Image) (sErr : String) (hw : 512 < img.width)
    (hwb : img.width ≤ 2 ^ 53) (hhb : img.height ≤ 2 ^ 53)
    (hpos : 0 < pyNewHeight img.width img.height) :
    (run ⟨true, some (.validImage img), true, sErr⟩).fs
        = some (.validImage ⟨512, pyNewHeight img.width img.height⟩) ∧
    (512 : Nat) = min img.width 512 := by
  have h0 : ¬ pyNewHeight img.width img.height = 0 := by omega
  constructor
  · simp [run, tryBody, applyHandlers, resizedImage, hw, h0]
  · omega

/-- Witness for C1 at the concrete image 1024 x 768. -/
theorem C1_width_cap_witness :
    (run ⟨true, some (.validImage ⟨1024, 768⟩), true, "e"⟩).fs
        = some (.validImage ⟨512, 384⟩) ∧
    (512 : Nat) = min 1024 512 := by
  have h := C1_width_cap ⟨1024, 768⟩ "e" (by decide) (by decide) (by decide)
    (by decide)
  exact ⟨h.1.trans (by decide), h.2⟩

/-- Counterexample to C1 as stated: at 4090 x 4090 the program's
double-precision height is 511 while `floor(4090 * 512 / 4090) = 512`,
and at 1024 x 1 the resize fails, leaving the on-disk width at 1024
rather than `min(1024, 512) = 512`. -/
theorem C1_width_cap_counterexample :
    (run ⟨true, some (.validImage ⟨4090, 4090⟩), true, "e"⟩).fs
        = some (.validImage ⟨512, 511⟩) ∧
    (4090 * 512 / 4090 : Nat) = 512 ∧ (511 : Nat) ≠ 512 ∧
    (run ⟨true, some (.validImage ⟨1024, 1⟩), true, "e"⟩).fs
        = some (.validImage ⟨1024, 1⟩) ∧
    (1024 : Nat) ≠ min 1024 512 := by
  refine ⟨by decide, by norm_num, by decide, by decide, by decide⟩

/-- C2: for every image with width at most 512, processing (with Pillow
available and a succeeding save) leaves the image on disk unchanged in
both dimensions, yet performs exactly one save of that image with
`optimize=True` and `quality=85`. -/
theorem C2_passthrough_resave (img : Image) (sErr : String)
    (h : img.width ≤ 512) :
    (run ⟨true, some (.validImage img), true, sErr⟩).fs
        = some (.validImage img) ∧
    (run ⟨true, some (.validImage img), true, sErr⟩).saves
        = [⟨img, true, 85⟩] := by
  have h2 : ¬ img.width > 512 := by omega
  constructor <;> simp [run, tryBody, applyHandlers, h2]

/-- Witness for C2 at the concrete image 256 x 256. -/
theorem C2_passthrough_resave_witness :
    (run ⟨true, some (.validImage ⟨256, 256⟩), true, "e"⟩).fs
        = some (.validImage ⟨256, 256⟩) ∧
    (run ⟨true, some (.validImage ⟨256, 256⟩), true, "e"⟩).saves
        = [⟨⟨256, 256⟩, true, 85⟩] :=
  C2_passthrough_resave ⟨256, 256⟩ "e" (by decide)

/-- C3: when the path does not exist (and the import succeeds, so the run
reaches the existence check), the run prints nothing, requests no resize,
performs no save, leaves the file system unchanged, and exits cleanly,
whatever the save behaviour of the environment would have been. -/
theorem C3_missing_file_noop (saveOk : Bool) (sErr : String) :
    run ⟨true, none, saveOk, sErr⟩
      = { output := [], fs := none, saves := [], resizes := [],
          uncaught := none } := rfl

/-- C4: whenever the body of the try block raises a non-import exception
with message `m`, the run catches it, appends the single line
`"Error: " ++ m` to whatever had been printed before the fault, and exits
with a success status (nothing escapes the handlers). -/
theorem C4_fault_absorbed (env : Env) (m : String)
    (h : (tryBody env).2 = some (.exc m)) :
    (run env).uncaught = none ∧
    (run env).output = (tryBody env).1.output ++ ["Error: " ++ m] := by
  unfold run
  rw [h]
  exact ⟨rfl, rfl⟩

/-- Witness for C4 at an environment whose file exists but does not
decode (so `Image.open` raises). -/
theorem C4_fault_absorbed_witness :
    (run ⟨true, some (.invalid "bad file"), true, "e"⟩).uncaught = none ∧
    (run ⟨true, some (.invalid "bad file"), true, "e"⟩).output
      = (tryBody ⟨true, some (.invalid "bad file"), true, "e"⟩).1.output
          ++ ["Error: " ++ "bad file"] :=
  C4_fault_absorbed ⟨true, some (.invalid "bad file"), true, "e"⟩ "bad file" rfl

/-- C5: when the PIL import fails, the run prints exactly the one line
"Pillow not installed", performs no save and leaves the file system
unchanged — whatever is on disk and however saving would have behaved,
since the failure short-circuits before any file access. -/
theorem C5_pillow_missing (file : Option FileContent) (saveOk : Bool)
    (sErr : String) :
    run ⟨false, file, saveOk, sErr⟩
      = { output := ["Pillow not installed"], fs := file, saves := [],
          resizes := [], uncaught := none } := rfl

/-- C6: running the optimizer a second time on the file produced by a
first run leaves the file content — in particular its dimensions —
exactly as the first run left it: a successful resize caps the width at
512 so the second run takes the pass-through branch, and a failed
zero-height resize leaves the file unchanged and fails identically
again. -/
theorem C6_idempotent (img : Image) (sErr : String) :
    (run ⟨true, (run ⟨true, some (.validImage img), true, sErr⟩).fs,
          true, sErr⟩).fs
      = (run ⟨true, some (.validImage img), true, sErr⟩).fs := by
  by_cases h : img.width > 512
  · by_cases h0 : pyNewHeight img.width img.height = 0
    · simp [run, tryBody, applyHandlers, resizedImage, h, h0]
    · simp [run, tryBody, applyHandlers, resizedImage, h, h0]
  · simp [run, tryBody, applyHandlers, h]

/-- C7: on a 1024 x 768 image, a successful run prints exactly the two
lines "Original size: (1024, 768)" and "Resized to: (512, 384)" in that
order, and writes a 512 x 384 image back to the path (1024 x 768 is
exact in binary64: the ratio is 0.5 and the product 384.0). -/
theorem C7_concrete_1024x768 :
    run ⟨true, some (.validImage ⟨1024, 768⟩), true, "e"⟩
      = { output := ["Original size: (1024, 768)", "Resized to: (512, 384)"],
          fs := some (.validImage ⟨512, 384⟩),
          saves := [⟨⟨512, 384⟩, true, 85⟩],
          resizes := [(512, 384)],
          uncaught := none } := by
  rfl

/-- C8: when the file exists but `Image.open` raises (the fault occurs
before any save is reached), the run performs no save call and the
on-disk file content is left unchanged, whatever the rest of the
environment. -/
theorem C8_open_fault_no_write (env : Env) (m : String)
    (h : env.file = some (.invalid m)) :
    (run env).fs = env.file ∧ (run env).saves = [] := by
  rcases env with ⟨pil, file, saveOk, sErr⟩
  subst h
  cases pil <;> simp [run, tryBody, applyHandlers]

/-- Witness for C8 at a concrete undecodable file. -/
theorem C8_open_fault_no_write_witness :
    (run ⟨true, some (.invalid "bad"), true, "e"⟩).fs
        = some (.invalid "bad") ∧
    (run ⟨true, some (.invalid "bad"), true, "e"⟩).saves = [] :=
  C8_open_fault_no_write ⟨true, some (.invalid "bad"), true, "e"⟩ "bad" rfl

/-- C9: the 1024 x 1 input has width above 512 and positive height, yet
the computed new height is 0, so the program requests a resize to
(512, 0) — a target height that violates the data model's requirement of
a positive height; Pillow then raises and the run reports the error,
leaving the file unchanged. -/
theorem C9_zero_height :
    512 < (1024 : Nat) ∧ 0 < (1 : Nat) ∧
    pyNewHeight 1024 1 = 0 ∧
    resizedImage ⟨1024, 1⟩ = ⟨512, 0⟩ ∧
    (run ⟨true, some (.validImage ⟨1024, 1⟩), true, "e"⟩).resizes
        = [(512, 0)] ∧
    ¬ 0 < (resizedImage ⟨1024, 1⟩).height ∧
    (run ⟨true, some (.validImage ⟨1024, 1⟩), true, "e"⟩).output
      = ["Original size: (1024, 1)", "Error: height and width must be > 0"] := by
  refine ⟨by decide, by decide, by decide, by decide, rfl, by decide, rfl⟩

/-- C10: the optimizer never upscales: whenever the path holds a valid
image, the file after the run still holds a valid image, and its width
and height are each at most the original ones — in every environment,
including failed imports, failed saves, and the failing zero-height
resize. -/
theorem C10_no_upscale (img : Image) (pil saveOk : Bool) (sErr : String) :
    ∃ img2 : Image,
      (run ⟨pil, some (.validImage img), saveOk, sErr⟩).fs
          = some (.validImage img2) ∧
      img2.width ≤ img.width ∧ img2.height ≤ img.height := by
  cases pil
  · exact ⟨img, rfl, le_refl _, le_refl _⟩
  · by_cases h : img.width > 512
    · by_cases h0 : pyNewHeight img.width img.height = 0
      · cases saveOk <;>
          exact ⟨img,
            by simp [run, tryBody, applyHandlers, resizedImage, h, h0],
            le_refl _, le_refl _⟩
      · cases saveOk
        · exact ⟨img,
            by simp [run, tryBody, applyHandlers, resizedImage, h, h0],
            le_refl _, le_refl _⟩
        · exact ⟨resizedImage img,
            by simp [run, tryBody, applyHandlers, resizedImage, h, h0],
            Nat.le_of_lt h, pyNewHeight_le img.width img.height h⟩
    · cases saveOk <;>
        exact ⟨img, by simp [run, tryBody, applyHandlers, h],
          le_refl _, le_refl _⟩
